import Mathlib

/-!
Formal model of the flight-record core of the Air Canada Flight Assistant
(`utilities.py`, `auth.py`), as a shallow embedding in Lean 4.

Modelling conventions:
* Python dicts holding flight data are modelled by the structure `Entry`
  whose fields are `Option`-valued (`none` = key absent).  The JSON store
  (`user_data`) is an association list `Store` in insertion order; Python
  `d[k] = v` is `dset` (replace in place, else append) and `d.get(k)` is
  `dget`.  Values written to the store by any code path are entry-shaped
  dicts, so `isinstance(entry, dict)` checks from the source hold by
  construction here.
* `str.upper`, `str.strip`, `str.endswith` and code-point string
  comparison are modelled list-wise (`pyUpper`, `pyStrip`, `pyEndsWith`,
  `lexLe`), matching Python semantics on the data the program handles.
* `datetime.strptime`/`strftime` for the two formats `%d%m%Y` and
  `%Y-%m-%d` are modelled by `parseDMY`/`parseYMD`/`fmtDMY`/`fmtYMD` on
  their canonical zero-padded forms (the forms the program itself
  produces and the spec's claims quantify over), including the real
  calendar validation (month ranges, month lengths, leap years) that
  `strptime` performs.
* `random.choice` streams are modelled by an explicit choice function
  `Nat → Nat`; `while code in user_data: code = generate_code()` is
  modelled by `freshFrom` over an explicit list of successive samples.
-/

-- ---------------------------------------------------------------------------
-- Python string primitives
-- ---------------------------------------------------------------------------

/-- Model of Python `str.upper` (character-wise; ASCII suffices for the
data handled by the program). -/
def pyUpper (s : String) : String := String.mk (s.data.map Char.toUpper)

/-- Model of Python `str.strip()`: drop whitespace from both ends. -/
def pyStrip (s : String) : String :=
  String.mk (((s.data.dropWhile Char.isWhitespace).reverse.dropWhile
    Char.isWhitespace).reverse)

/-- Model of Python `str.endswith(suffix)`. -/
def pyEndsWith (s suffix : String) : Prop := suffix.data <:+ s.data

instance (s suffix : String) : Decidable (pyEndsWith s suffix) := by
  unfold pyEndsWith; infer_instance

theorem pyEndsWith_append (s suffix : String) : pyEndsWith (s ++ suffix) suffix := by
  unfold pyEndsWith
  rw [String.data_append]
  exact List.suffix_append _ _

theorem not_pyEndsWith_of_length_lt (s suffix : String)
    (h : s.length < suffix.length) : ¬ pyEndsWith s suffix := by
  intro hsuf
  have := hsuf.length_le
  simp only [String.length] at h
  omega

/-- Code-point comparison of character lists: model of Python string `<=`
(and of the comparisons done by `list.sort(key=...)`). -/
def lexLe : List Char → List Char → Bool
  | [], _ => true
  | _ :: _, [] => false
  | a :: as, b :: bs =>
    if a.toNat < b.toNat then true
    else if b.toNat < a.toNat then false
    else lexLe as bs

theorem lexLe_total (a b : List Char) : lexLe a b = true ∨ lexLe b a = true := by
  induction a generalizing b with
  | nil => left; rfl
  | cons x xs ih =>
    cases b with
    | nil => right; rfl
    | cons y ys =>
      by_cases h1 : x.toNat < y.toNat
      · left; simp [lexLe, h1]
      · by_cases h2 : y.toNat < x.toNat
        · right; simp [lexLe, h2]
        · rcases ih ys with h | h
          · left; simp [lexLe, h1, h2, h]
          · right; simp [lexLe, h1, h2, h]

theorem lexLe_trans (a b c : List Char) (h1 : lexLe a b = true)
    (h2 : lexLe b c = true) : lexLe a c = true := by
  induction a generalizing b c with
  | nil => rfl
  | cons x xs ih =>
    cases b with
    | nil => simp [lexLe] at h1
    | cons y ys =>
      cases c with
      | nil => simp [lexLe] at h2
      | cons z zs =>
        simp only [lexLe] at h1 h2 ⊢
        split at h1
        · split at h2
          · simp; omega
          · split at h2
            · exact absurd h2 (by simp)
            · simp; omega
        · split at h1
          · exact absurd h1 (by simp)
          · split at h2
            · simp; omega
            · split at h2
              · exact absurd h2 (by simp)
              · have hxz : ¬ x.toNat < z.toNat ∧ ¬ z.toNat < x.toNat := by omega
                simp only [hxz.1, if_false, hxz.2]
                exact ih ys zs h1 h2

-- ---------------------------------------------------------------------------
-- Flight entry data model and the JSON store
-- ---------------------------------------------------------------------------

/-- The `{"dep": ..., "arr": ...}` sub-dict stored under `"gate"`. -/
structure GateInfo where
  dep : Option String := none
  arr : Option String := none
deriving DecidableEq, Repr

/-- The `{"link": ...}` sub-dicts stored under `"server"` and `"event"`. -/
structure LinkInfo where
  link : Option String := none
deriving DecidableEq, Repr

/-- A flight-record / wizard-session dict as written by `utilities.py`.
Every field is optional: `none` means the key is absent from the dict.
(`public_message_id` / `admin_message_id` are set to Python `None` at
creation; no code path membership-tests them, so a `None` value is
modelled as an absent key.) -/
structure Entry where
  code : Option String := none
  flight_number : Option String := none
  dep_city : Option String := none
  arr_city : Option String := none
  dep_code : Option String := none
  arr_code : Option String := none
  dep_airport : Option String := none
  arr_airport : Option String := none
  dep_time : Option String := none
  arr_time : Option String := none
  dep_date : Option String := none
  duration : Option String := none
  terminal : Option String := none
  aircraft : Option String := none
  meal_service : Option String := none
  status : Option String := none
  gate : Option GateInfo := none
  alerts : Option String := none
  server : Option LinkInfo := none
  event : Option LinkInfo := none
  host_user_id : Option String := none
  created_at : Option String := none
  public_message_id : Option String := none
  admin_message_id : Option String := none
  announce_message_id : Option String := none
deriving DecidableEq, Repr

/-- The `user_data` mapping: an insertion-ordered association list. -/
abbrev Store := List (String × Entry)

/-- Python `d.get(k)` on the store. -/
def dget : Store → String → Option Entry
  | [], _ => none
  | (k, v) :: rest, key => if k = key then some v else dget rest key

/-- Python `d[k] = v` on the store: replace in place, else append. -/
def dset : Store → String → Entry → Store
  | [], key, v => [(key, v)]
  | (k, w) :: rest, key, v =>
    if k = key then (k, v) :: rest else (k, w) :: dset rest key v

theorem dget_dset_self (s : Store) (k : String) (v : Entry) :
    dget (dset s k v) k = some v := by
  induction s with
  | nil => simp [dset, dget]
  | cons kv rest ih =>
    by_cases h : kv.1 = k
    · simp [dset, dget, h]
    · simp [dset, dget, h, ih]

theorem dget_dset_ne (s : Store) (k k' : String) (v : Entry) (h : k ≠ k') :
    dget (dset s k v) k' = dget s k' := by
  induction s with
  | nil => simp [dset, dget, h]
  | cons kv rest ih =>
    by_cases hk : kv.1 = k
    · simp [dset, dget, hk, h]
    · by_cases hk' : kv.1 = k'
      · simp [dset, dget, hk, hk', Ne.symm h]
      · simp [dset, dget, hk, hk', ih]

-- ---------------------------------------------------------------------------
-- Date parsing / formatting (`strptime` / `strftime` fragments)
-- ---------------------------------------------------------------------------

/-- Numeric value of an ASCII digit character. -/
def digitVal (c : Char) : Nat := c.toNat - 48

/-- `'0' ≤ c ≤ '9'` on code points. -/
def isDigitB (c : Char) : Bool := 48 ≤ c.toNat && c.toNat ≤ 57

/-- The ASCII digit character for `n ≤ 9`. -/
def digitChar : Nat → Char
  | 0 => '0' | 1 => '1' | 2 => '2' | 3 => '3' | 4 => '4'
  | 5 => '5' | 6 => '6' | 7 => '7' | 8 => '8' | _ => '9'

theorem digitVal_digitChar (k : Nat) (h : k ≤ 9) : digitVal (digitChar k) = k := by
  interval_cases k <;> decide

theorem isDigitB_digitChar (k : Nat) (h : k ≤ 9) : isDigitB (digitChar k) = true := by
  interval_cases k <;> decide

theorem digitChar_digitVal (c : Char) (h : isDigitB c = true) :
    digitChar (digitVal c) = c := by
  have hc := Char.ofNat_toNat c
  simp only [isDigitB, Bool.and_eq_true, decide_eq_true_eq] at h
  obtain ⟨h1, h2⟩ := h
  unfold digitVal
  interval_cases h3 : c.toNat <;> rw [← hc] <;> decide

/-- Gregorian leap year, as `datetime` validates it. -/
def isLeap (y : Nat) : Bool := (y % 4 == 0 && y % 100 != 0) || (y % 400 == 0)

/-- Number of days in month `m` of year `y`. -/
def daysInMonth (y m : Nat) : Nat :=
  if m = 2 then (if isLeap y then 29 else 28)
  else if m = 4 ∨ m = 6 ∨ m = 9 ∨ m = 11 then 30
  else 31

/-- `datetime`'s validity condition on a (year, month, day) triple. -/
def validYMD (y m d : Nat) : Bool :=
  1 ≤ y && y ≤ 9999 && 1 ≤ m && m ≤ 12 && 1 ≤ d && d ≤ daysInMonth y m

theorem daysInMonth_le (y m : Nat) : daysInMonth y m ≤ 31 := by
  unfold daysInMonth
  split <;> split <;> omega

theorem digitVal_le_nine (c : Char) (h : isDigitB c = true) : digitVal c ≤ 9 := by
  simp only [isDigitB, Bool.and_eq_true, decide_eq_true_eq] at h
  unfold digitVal
  omega

/-- Model of `datetime.strptime(s, "%d%m%Y")`, following CPython's
`_strptime` regex `(3[0-1]|[1-2]\\d|0[1-9]|[1-9]| [1-9])` /
`(1[0-2]|0[1-9]|[1-9])` / `\\d\\d\\d\\d` with its ordered-alternative
backtracking, the trailing "unconverted data remains" length check, and
the calendar validation done by the `datetime` constructor.  So lenient
forms such as `"1012025"` (10 Jan 2025) and `"112025"` (1 Jan 2025)
parse, while `"25932025"` fails: the regex engine commits to its first
full pattern match (day 25, month 9, year 3202) and the leftover `"5"`
then raises, with no further backtracking. -/
def parseDay2 : List Char → Option (Nat × List Char)
  | c1 :: c2 :: rest =>
    if (c1 = '3' ∧ (c2 = '0' ∨ c2 = '1')) ∨
        ((c1 = '1' ∨ c1 = '2') ∧ isDigitB c2 = true) ∨
        (c1 = '0' ∧ isDigitB c2 = true ∧ c2 ≠ '0') then
      some (10 * digitVal c1 + digitVal c2, rest)
    else none
  | _ => none

/-- The `[1-9]` one-digit alternative (used by both `%d` and `%m`). -/
def parseNZDigit : List Char → Option (Nat × List Char)
  | c :: rest =>
    if isDigitB c = true ∧ c ≠ '0' then some (digitVal c, rest) else none
  | _ => none

/-- The ` [1-9]` (space + digit) alternative of `%d`. -/
def parseDaySp : List Char → Option (Nat × List Char)
  | ' ' :: c :: rest =>
    if isDigitB c = true ∧ c ≠ '0' then some (digitVal c, rest) else none
  | _ => none

/-- The two-digit alternatives `1[0-2]|0[1-9]` of `%m`. -/
def parseMonth2 : List Char → Option (Nat × List Char)
  | c1 :: c2 :: rest =>
    if (c1 = '1' ∧ (c2 = '0' ∨ c2 = '1' ∨ c2 = '2')) ∨
        (c1 = '0' ∧ isDigitB c2 = true ∧ c2 ≠ '0') then
      some (10 * digitVal c1 + digitVal c2, rest)
    else none
  | _ => none

/-- `\\d\\d\\d\\d` of `%Y`. -/
def parseYear4 : List Char → Option (Nat × List Char)
  | c1 :: c2 :: c3 :: c4 :: rest =>
    if isDigitB c1 = true ∧ isDigitB c2 = true ∧ isDigitB c3 = true ∧
        isDigitB c4 = true then
      some (1000 * digitVal c1 + 100 * digitVal c2 + 10 * digitVal c3 +
        digitVal c4, rest)
    else none
  | _ => none

/-- `%m%Y` with the one-digit month alternative only. -/
def parseMY1 (l : List Char) : Option (Nat × Nat × List Char) :=
  match parseNZDigit l with
  | some (m, r) =>
    match parseYear4 r with
    | some (y, r') => some (m, y, r')
    | none => none
  | none => none

/-- `%m%Y`: two-digit month alternatives first, backtracking to the
one-digit alternative when the four year digits do not follow. -/
def parseMY (l : List Char) : Option (Nat × Nat × List Char) :=
  match parseMonth2 l with
  | some (m, r) =>
    match parseYear4 r with
    | some (y, r') => some (m, y, r')
    | none => parseMY1 l
  | none => parseMY1 l

/-- `%d%m%Y` starting from the ` [1-9]` day alternative (tried last). -/
def parseDMYSp (l : List Char) : Option (Nat × Nat × Nat × List Char) :=
  match parseDaySp l with
  | some (d, r) =>
    match parseMY r with
    | some (m, y, r') => some (d, m, y, r')
    | none => none
  | none => none

/-- `%d%m%Y` starting from the `[1-9]` day alternative. -/
def parseDMY1 (l : List Char) : Option (Nat × Nat × Nat × List Char) :=
  match parseNZDigit l with
  | some (d, r) =>
    match parseMY r with
    | some (m, y, r') => some (d, m, y, r')
    | none => parseDMYSp l
  | none => parseDMYSp l

/-- The full `%d%m%Y` regex match: two-digit day alternatives first,
then `[1-9]`, then ` [1-9]`, with full backtracking below each. -/
def parseDMYFull (l : List Char) : Option (Nat × Nat × Nat × List Char) :=
  match parseDay2 l with
  | some (d, r) =>
    match parseMY r with
    | some (m, y, r') => some (d, m, y, r')
    | none => parseDMY1 l
  | none => parseDMY1 l

def parseDMYList (l : List Char) : Option (Nat × Nat × Nat) :=
  match parseDMYFull l with
  | some (d, m, y, rest) =>
    if rest = [] then
      if validYMD y m d then some (d, m, y) else none
    else none
  | none => none

def parseDMY (s : String) : Option (Nat × Nat × Nat) := parseDMYList s.data

/-- Model of `datetime.strptime(s, "%Y-%m-%d")` on its canonical
zero-padded `YYYY-MM-DD` form, returning `(year, month, day)`. -/
def parseYMDList : List Char → Option (Nat × Nat × Nat)
  | [y1, y2, y3, y4, s1, m1, m2, s2, d1, d2] =>
    if (s1 = '-' && s2 = '-' && isDigitB y1 && isDigitB y2 && isDigitB y3 &&
        isDigitB y4 && isDigitB m1 && isDigitB m2 && isDigitB d1 && isDigitB d2) then
      if validYMD (1000 * digitVal y1 + 100 * digitVal y2 + 10 * digitVal y3 + digitVal y4)
          (10 * digitVal m1 + digitVal m2) (10 * digitVal d1 + digitVal d2) then
        some (1000 * digitVal y1 + 100 * digitVal y2 + 10 * digitVal y3 + digitVal y4,
              10 * digitVal m1 + digitVal m2, 10 * digitVal d1 + digitVal d2)
      else none
    else none
  | _ => none

def parseYMD (s : String) : Option (Nat × Nat × Nat) := parseYMDList s.data

/-- Model of `dt.strftime("%d%m%Y")` (zero-padded day, month, 4-digit year). -/
def fmtDMYList (d m y : Nat) : List Char :=
  [digitChar (d / 10), digitChar (d % 10),
   digitChar (m / 10), digitChar (m % 10),
   digitChar (y / 1000), digitChar (y / 100 % 10),
   digitChar (y / 10 % 10), digitChar (y % 10)]

def fmtDMY (d m y : Nat) : String := String.mk (fmtDMYList d m y)

/-- Model of `dt.strftime("%Y-%m-%d")`. -/
def fmtYMDList (y m d : Nat) : List Char :=
  [digitChar (y / 1000), digitChar (y / 100 % 10),
   digitChar (y / 10 % 10), digitChar (y % 10), '-',
   digitChar (m / 10), digitChar (m % 10), '-',
   digitChar (d / 10), digitChar (d % 10)]

def fmtYMD (y m d : Nat) : String := String.mk (fmtYMDList y m d)

theorem validYMD_bounds (y m d : Nat) (h : validYMD y m d = true) :
    1 ≤ y ∧ y ≤ 9999 ∧ 1 ≤ m ∧ m ≤ 12 ∧ 1 ≤ d ∧ d ≤ 31 := by
  have h31 := daysInMonth_le y m
  simp only [validYMD, Bool.and_eq_true, decide_eq_true_eq] at h
  omega

theorem parseDay2_pad (d : Nat) (h1 : 1 ≤ d) (h2 : d ≤ 31) (rest : List Char) :
    parseDay2 (digitChar (d / 10) :: digitChar (d % 10) :: rest) =
      some (d, rest) := by
  have hr9 : d % 10 ≤ 9 := by omega
  have hcond : (digitChar (d / 10) = '3' ∧
        (digitChar (d % 10) = '0' ∨ digitChar (d % 10) = '1')) ∨
      ((digitChar (d / 10) = '1' ∨ digitChar (d / 10) = '2') ∧
        isDigitB (digitChar (d % 10)) = true) ∨
      (digitChar (d / 10) = '0' ∧ isDigitB (digitChar (d % 10)) = true ∧
        digitChar (d % 10) ≠ '0') := by
    have hq : d / 10 = 0 ∨ d / 10 = 1 ∨ d / 10 = 2 ∨ d / 10 = 3 := by omega
    rcases hq with h | h | h | h
    · right; right
      rw [h]
      refine ⟨rfl, isDigitB_digitChar _ hr9, fun hc => ?_⟩
      have hv := digitVal_digitChar (d % 10) hr9
      rw [hc] at hv
      have h0 : digitVal '0' = 0 := rfl
      omega
    · right; left
      rw [h]
      exact ⟨Or.inl rfl, isDigitB_digitChar _ hr9⟩
    · right; left
      rw [h]
      exact ⟨Or.inr rfl, isDigitB_digitChar _ hr9⟩
    · left
      rw [h]
      refine ⟨rfl, ?_⟩
      have hr : d % 10 = 0 ∨ d % 10 = 1 := by omega
      rcases hr with h3 | h3
      · rw [h3]; exact Or.inl rfl
      · rw [h3]; exact Or.inr rfl
  show (if (digitChar (d / 10) = '3' ∧
        (digitChar (d % 10) = '0' ∨ digitChar (d % 10) = '1')) ∨
      ((digitChar (d / 10) = '1' ∨ digitChar (d / 10) = '2') ∧
        isDigitB (digitChar (d % 10)) = true) ∨
      (digitChar (d / 10) = '0' ∧ isDigitB (digitChar (d % 10)) = true ∧
        digitChar (d % 10) ≠ '0') then
      some (10 * digitVal (digitChar (d / 10)) + digitVal (digitChar (d % 10)),
        rest)
    else none) = some (d, rest)
  rw [if_pos hcond, digitVal_digitChar _ (show d / 10 ≤ 9 by omega),
    digitVal_digitChar _ hr9, show 10 * (d / 10) + d % 10 = d from by omega]

theorem parseMonth2_pad (m : Nat) (h1 : 1 ≤ m) (h2 : m ≤ 12) (rest : List Char) :
    parseMonth2 (digitChar (m / 10) :: digitChar (m % 10) :: rest) =
      some (m, rest) := by
  have hr9 : m % 10 ≤ 9 := by omega
  have hcond : (digitChar (m / 10) = '1' ∧
        (digitChar (m % 10) = '0' ∨ digitChar (m % 10) = '1' ∨
          digitChar (m % 10) = '2')) ∨
      (digitChar (m / 10) = '0' ∧ isDigitB (digitChar (m % 10)) = true ∧
        digitChar (m % 10) ≠ '0') := by
    have hq : m / 10 = 0 ∨ m / 10 = 1 := by omega
    rcases hq with h | h
    · right
      rw [h]
      refine ⟨rfl, isDigitB_digitChar _ hr9, fun hc => ?_⟩
      have hv := digitVal_digitChar (m % 10) hr9
      rw [hc] at hv
      have h0 : digitVal '0' = 0 := rfl
      omega
    · left
      rw [h]
      refine ⟨rfl, ?_⟩
      have hr : m % 10 = 0 ∨ m % 10 = 1 ∨ m % 10 = 2 := by omega
      rcases hr with h3 | h3 | h3
      · rw [h3]; exact Or.inl rfl
      · rw [h3]; exact Or.inr (Or.inl rfl)
      · rw [h3]; exact Or.inr (Or.inr rfl)
  show (if (digitChar (m / 10) = '1' ∧
        (digitChar (m % 10) = '0' ∨ digitChar (m % 10) = '1' ∨
          digitChar (m % 10) = '2')) ∨
      (digitChar (m / 10) = '0' ∧ isDigitB (digitChar (m % 10)) = true ∧
        digitChar (m % 10) ≠ '0') then
      some (10 * digitVal (digitChar (m / 10)) + digitVal (digitChar (m % 10)),
        rest)
    else none) = some (m, rest)
  rw [if_pos hcond, digitVal_digitChar _ (show m / 10 ≤ 9 by omega),
    digitVal_digitChar _ hr9, show 10 * (m / 10) + m % 10 = m from by omega]

theorem parseYear4_pad (y : Nat) (h : y ≤ 9999) (rest : List Char) :
    parseYear4 (digitChar (y / 1000) :: digitChar (y / 100 % 10) ::
      digitChar (y / 10 % 10) :: digitChar (y % 10) :: rest) = some (y, rest) := by
  have b1 : y / 1000 ≤ 9 := by omega
  have b2 : y / 100 % 10 ≤ 9 := by omega
  have b3 : y / 10 % 10 ≤ 9 := by omega
  have b4 : y % 10 ≤ 9 := by omega
  show (if isDigitB (digitChar (y / 1000)) = true ∧
      isDigitB (digitChar (y / 100 % 10)) = true ∧
      isDigitB (digitChar (y / 10 % 10)) = true ∧
      isDigitB (digitChar (y % 10)) = true then
      some (1000 * digitVal (digitChar (y / 1000)) +
        100 * digitVal (digitChar (y / 100 % 10)) +
        10 * digitVal (digitChar (y / 10 % 10)) + digitVal (digitChar (y % 10)),
        rest)
    else none) = some (y, rest)
  rw [if_pos ⟨isDigitB_digitChar _ b1, isDigitB_digitChar _ b2,
      isDigitB_digitChar _ b3, isDigitB_digitChar _ b4⟩,
    digitVal_digitChar _ b1, digitVal_digitChar _ b2, digitVal_digitChar _ b3,
    digitVal_digitChar _ b4,
    show 1000 * (y / 1000) + 100 * (y / 100 % 10) + 10 * (y / 10 % 10) + y % 10 = y
      from by omega]

theorem parseMY_pad (m y : Nat) (hm1 : 1 ≤ m) (hm : m ≤ 12) (hy : y ≤ 9999)
    (rest : List Char) :
    parseMY (digitChar (m / 10) :: digitChar (m % 10) :: digitChar (y / 1000) ::
      digitChar (y / 100 % 10) :: digitChar (y / 10 % 10) :: digitChar (y % 10) ::
      rest) = some (m, y, rest) := by
  simp only [parseMY, parseMonth2_pad m hm1 hm, parseYear4_pad y hy]

theorem parseDMY_fmtDMY (y m d : Nat) (h : validYMD y m d = true) :
    parseDMY (fmtDMY d m y) = some (d, m, y) := by
  obtain ⟨-, hy, hm1, hm, hd1, hd31⟩ := validYMD_bounds y m d h
  show parseDMYList (fmtDMYList d m y) = some (d, m, y)
  simp only [parseDMYList, parseDMYFull, fmtDMYList,
    parseDay2_pad d hd1 hd31, parseMY_pad m y hm1 hm hy, h, if_true]

theorem fmtYMDList_of_parseYMDList (l : List Char) (y m d : Nat)
    (h : parseYMDList l = some (y, m, d)) : fmtYMDList y m d = l := by
  unfold parseYMDList at h
  split at h
  case h_2 => exact absurd h (by simp)
  case h_1 y1 y2 y3 y4 s1 m1 m2 s2 d1 d2 =>
    split at h
    case isFalse => exact absurd h (by simp)
    case isTrue hdig =>
      split at h
      case isFalse => exact absurd h (by simp)
      case isTrue hval =>
        simp only [Option.some.injEq, Prod.mk.injEq] at h
        obtain ⟨hy, ⟨hm, hd⟩⟩ := h
        simp only [Bool.and_eq_true, decide_eq_true_eq] at hdig
        obtain ⟨⟨⟨⟨⟨⟨⟨⟨⟨hs1, hs2⟩, hy1⟩, hy2⟩, hy3⟩, hy4⟩, hm1⟩, hm2⟩, hd1⟩, hd2⟩ := hdig
        have by1 := digitVal_le_nine y1 hy1
        have by2 := digitVal_le_nine y2 hy2
        have by3 := digitVal_le_nine y3 hy3
        have by4 := digitVal_le_nine y4 hy4
        have bm1 := digitVal_le_nine m1 hm1
        have bm2 := digitVal_le_nine m2 hm2
        have bd1 := digitVal_le_nine d1 hd1
        have bd2 := digitVal_le_nine d2 hd2
        unfold fmtYMDList
        rw [show y / 1000 = digitVal y1 by omega,
            show y / 100 % 10 = digitVal y2 by omega,
            show y / 10 % 10 = digitVal y3 by omega,
            show y % 10 = digitVal y4 by omega,
            show m / 10 = digitVal m1 by omega,
            show m % 10 = digitVal m2 by omega,
            show d / 10 = digitVal d1 by omega,
            show d % 10 = digitVal d2 by omega,
            digitChar_digitVal y1 hy1, digitChar_digitVal y2 hy2,
            digitChar_digitVal y3 hy3, digitChar_digitVal y4 hy4,
            digitChar_digitVal m1 hm1, digitChar_digitVal m2 hm2,
            digitChar_digitVal d1 hd1, digitChar_digitVal d2 hd2,
            hs1, hs2]

theorem fmtYMD_of_parseYMD (s : String) (y m d : Nat)
    (h : parseYMD s = some (y, m, d)) : fmtYMD y m d = s := by
  apply String.ext
  exact fmtYMDList_of_parseYMDList s.data y m d h

theorem validYMD_of_parseYMD (s : String) (y m d : Nat)
    (h : parseYMD s = some (y, m, d)) : validYMD y m d = true := by
  unfold parseYMD parseYMDList at h
  split at h
  case h_2 => exact absurd h (by simp)
  case h_1 =>
    split at h
    case isFalse => exact absurd h (by simp)
    case isTrue =>
      split at h
      case isFalse => exact absurd h (by simp)
      case isTrue hval =>
        simp only [Option.some.injEq, Prod.mk.injEq] at h
        obtain ⟨hy, hm, hd⟩ := h
        rw [← hy, ← hm, ← hd]
        exact hval

-- ---------------------------------------------------------------------------
-- Code generation (`generate_code`, `generate_ref_code`, collision loops)
-- ---------------------------------------------------------------------------

/-- `string.ascii_uppercase + string.digits`. -/
def codeAlphabet : List Char :=
  ['A', 'B', 'C', 'D', 'E', 'F', 'G', 'H', 'I', 'J', 'K', 'L', 'M',
   'N', 'O', 'P', 'Q', 'R', 'S', 'T', 'U', 'V', 'W', 'X', 'Y', 'Z',
   '0', '1', '2', '3', '4', '5', '6', '7', '8', '9']

/-- One `random.choice(alphabet)` draw, given the raw random value. -/
def pickChar (n : Nat) : Char :=
  codeAlphabet.get ⟨n % 36, Nat.mod_lt n (by decide)⟩

theorem string_mk_data (l : List Char) : (String.mk l).data = l := rfl

/-- `generate_code(length)`: a `length`-character string of random
alphabet draws; `r` is the stream of raw random values. -/
def generate_code (r : Nat → Nat) (length : Nat) : String :=
  String.mk ((List.range length).map (fun i => pickChar (r i)))

/-- The bare call `generate_code()` uses the default `length=6`. -/
def generate_code_default (r : Nat → Nat) : String := generate_code r 6

/-- `generate_ref_code(length)`: identical draw with default `length=7`. -/
def generate_ref_code (r : Nat → Nat) (length : Nat) : String :=
  String.mk ((List.range length).map (fun i => pickChar (r i)))

def generate_ref_code_default (r : Nat → Nat) : String := generate_ref_code r 7

/-- `code = generate_code(); while code in user_data: code = generate_code()`:
take the first sample in the (pre-drawn) candidate list that is not a key
of the store; `none` when every listed sample collides. -/
def freshFrom (store : Store) : List String → Option String
  | [] => none
  | c :: rest => if (dget store c).isSome then freshFrom store rest else some c

/-- The code-drawing loop of `ConfirmView.yes_button` (wizard finalization,
lines 1095-1097): successive `generate_code()` calls with default length. -/
def wizardDrawCode (store : Store) (rs : List (Nat → Nat)) : Option String :=
  freshFrom store (rs.map generate_code_default)

/-- The code-drawing loop of `create_flight` (`POST /api/flights`,
lines 630-632): successive `generate_code()` calls with default length. -/
def dashboardDrawCode (store : Store) (rs : List (Nat → Nat)) : Option String :=
  freshFrom store (rs.map generate_code_default)

theorem generate_code_length (r : Nat → Nat) (n : Nat) :
    (generate_code r n).length = n := by
  simp [generate_code, String.length]

theorem generate_code_alphabet (r : Nat → Nat) (n : Nat) :
    ∀ c ∈ (generate_code r n).data, c ∈ codeAlphabet := by
  intro c hc
  simp only [generate_code, string_mk_data, List.mem_map] at hc
  obtain ⟨i, -, hpick⟩ := hc
  rw [← hpick]
  exact List.get_mem _ _ _

theorem freshFrom_spec (store : Store) (cs : List String) (c : String)
    (h : freshFrom store cs = some c) : dget store c = none ∧ c ∈ cs := by
  induction cs with
  | nil => simp [freshFrom] at h
  | cons x rest ih =>
    unfold freshFrom at h
    split at h
    · rcases ih h with ⟨h1, h2⟩
      exact ⟨h1, List.mem_cons_of_mem _ h2⟩
    · next hx =>
      cases h
      refine ⟨?_, List.mem_cons_self _ _⟩
      cases hd : dget store c
      · rfl
      · rw [hd] at hx; simp at hx

-- ---------------------------------------------------------------------------
-- `get_real_flights` and the real-record predicate
-- ---------------------------------------------------------------------------

/-- The condition of the dict comprehension in `get_real_flights`
(`isinstance(entry, dict)` holds for every store value in this model). -/
def isRealPair (code : String) (entry : Entry) : Bool :=
  entry.flight_number.isSome && !(decide (pyEndsWith code "_pending")) &&
    (code.length == 6)

/-- `get_real_flights()`: only real flight entries, session/pending
keys skipped. -/
def get_real_flights (store : Store) : Store :=
  store.filter (fun kv => isRealPair kv.1 kv.2)

theorem mem_get_real_flights (store : Store) (k : String) (e : Entry) :
    (k, e) ∈ get_real_flights store ↔
      (k, e) ∈ store ∧ e.flight_number.isSome = true ∧
        ¬ pyEndsWith k "_pending" ∧ k.length = 6 := by
  simp only [get_real_flights, List.mem_filter, isRealPair, Bool.and_eq_true,
    Bool.not_eq_true', decide_eq_false_iff_not, beq_iff_eq]
  tauto

-- ---------------------------------------------------------------------------
-- `group_flights_by_date`
-- ---------------------------------------------------------------------------

/-- `entry.get("dep_date", "unknown")`. -/
def depDateKey (e : Entry) : String := e.dep_date.getD "unknown"

/-- `x[1].get("dep_time", "00:00")` — the sort key. -/
def depTimeKey (e : Entry) : String := e.dep_time.getD "00:00"

/-- The comparison `list.sort(key=...)` effectively uses. -/
def timeRel (a b : String × Entry) : Prop :=
  lexLe (depTimeKey a.2).data (depTimeKey b.2).data = true

instance : DecidableRel timeRel := fun a b => by unfold timeRel; infer_instance

instance : IsTotal (String × Entry) timeRel :=
  ⟨fun a b => lexLe_total (depTimeKey a.2).data (depTimeKey b.2).data⟩

instance : IsTrans (String × Entry) timeRel :=
  ⟨fun _ _ _ h1 h2 => lexLe_trans _ _ _ h1 h2⟩

/-- One iteration of the grouping loop: append `(code, entry)` to the
bucket of its date (buckets keep first-seen order, as a Python dict). -/
def addToGroup : List (String × Store) → String → (String × Entry) →
    List (String × Store)
  | [], d, x => [(d, [x])]
  | (d', l) :: rest, d, x =>
    if d' = d then (d', l ++ [x]) :: rest else (d', l) :: addToGroup rest d x

/-- `group_flights_by_date(flights)`: group by `dep_date`, then sort each
day's list by `dep_time` (stable, like Python `list.sort`). -/
def group_flights_by_date (flights : Store) : List (String × Store) :=
  (flights.foldl (fun gs x => addToGroup gs (depDateKey x.2) x) []).map
    (fun g => (g.1, g.2.insertionSort timeRel))

theorem addToGroup_flatten (gs : List (String × Store)) (d : String)
    (x : String × Entry) :
    List.Perm ((addToGroup gs d x).map Prod.snd).flatten
      (x :: (gs.map Prod.snd).flatten) := by
  induction gs with
  | nil => simp [addToGroup]
  | cons g rest ih =>
    rcases g with ⟨d', l⟩
    by_cases h : d' = d
    · simp only [addToGroup, h, if_true, List.map_cons, List.flatten_cons]
      have p1 : List.Perm (l ++ [x]) (x :: l) := List.perm_append_comm
      exact p1.append_right _
    · simp only [addToGroup, h, if_false, List.map_cons, List.flatten_cons]
      exact (ih.append_left l).trans List.perm_middle

theorem foldl_addToGroup_flatten (xs : Store) (gs : List (String × Store)) :
    List.Perm
      (((xs.foldl (fun gs x => addToGroup gs (depDateKey x.2) x) gs).map
        Prod.snd).flatten)
      ((gs.map Prod.snd).flatten ++ xs) := by
  induction xs generalizing gs with
  | nil => simp
  | cons x rest ih =>
    simp only [List.foldl_cons]
    refine (ih (addToGroup gs (depDateKey x.2) x)).trans ?_
    refine (((addToGroup_flatten gs (depDateKey x.2) x).append_right rest).trans ?_)
    exact List.perm_middle.symm

theorem flatten_sortGroups (gs : List (String × Store)) :
    List.Perm
      (((gs.map (fun g => (g.1, g.2.insertionSort timeRel))).map Prod.snd).flatten)
      ((gs.map Prod.snd).flatten) := by
  induction gs with
  | nil => simp
  | cons g rest ih =>
    simp only [List.map_cons, List.flatten_cons]
    exact (List.perm_insertionSort timeRel g.2).append ih

/-- Grouping then re-flattening is a permutation of the input records. -/
theorem group_flights_flatten (flights : Store) :
    List.Perm (((group_flights_by_date flights).map Prod.snd).flatten) flights := by
  unfold group_flights_by_date
  refine (flatten_sortGroups _).trans ?_
  simpa using foldl_addToGroup_flatten flights []

theorem mem_keys_addToGroup (gs : List (String × Store)) (d : String)
    (x : String × Entry) (k : String)
    (h : k ∈ (addToGroup gs d x).map Prod.fst) :
    k = d ∨ k ∈ gs.map Prod.fst := by
  induction gs with
  | nil => simpa [addToGroup] using h
  | cons g rest ih =>
    rcases g with ⟨d', l⟩
    by_cases hd : d' = d
    · simp only [addToGroup, hd, if_true, List.map_cons, List.mem_cons] at h ⊢
      tauto
    · simp only [addToGroup, hd, if_false, List.map_cons, List.mem_cons] at h ⊢
      rcases h with h | h
      · tauto
      · rcases ih h with h' | h' <;> tauto

theorem addToGroup_keys_nodup (gs : List (String × Store)) (d : String)
    (x : String × Entry) (h : (gs.map Prod.fst).Nodup) :
    ((addToGroup gs d x).map Prod.fst).Nodup := by
  induction gs with
  | nil => simp [addToGroup]
  | cons g rest ih =>
    rcases g with ⟨d', l⟩
    simp only [List.map_cons, List.nodup_cons] at h
    by_cases hd : d' = d
    · subst hd
      simp only [addToGroup, if_true, List.map_cons, List.nodup_cons]
      exact h
    · simp only [addToGroup, hd, if_false, List.map_cons, List.nodup_cons]
      refine ⟨fun hmem => ?_, ih h.2⟩
      rcases mem_keys_addToGroup rest d x d' hmem with h' | h'
      · exact hd h'
      · exact h.1 h'

theorem addToGroup_dates (gs : List (String × Store)) (d : String)
    (x : String × Entry)
    (hgs : ∀ p ∈ gs, ∀ z ∈ p.2, depDateKey z.2 = p.1)
    (hx : depDateKey x.2 = d) :
    ∀ p ∈ addToGroup gs d x, ∀ z ∈ p.2, depDateKey z.2 = p.1 := by
  induction gs with
  | nil =>
    intro p hp z hz
    simp only [addToGroup, List.mem_singleton] at hp
    subst hp
    simp only [List.mem_singleton] at hz
    subst hz
    exact hx
  | cons g rest ih =>
    rcases g with ⟨d', l⟩
    by_cases hd : d' = d
    · subst hd
      intro p hp z hz
      simp only [addToGroup, if_true, List.mem_cons] at hp
      rcases hp with hp | hp
      · subst hp
        simp only [List.mem_append, List.mem_singleton] at hz
        rcases hz with hz | hz
        · exact hgs (d', l) (List.mem_cons_self _ _) z (by simpa using hz)
        · subst hz; exact hx
      · exact hgs p (List.mem_cons_of_mem _ hp) z hz
    · intro p hp z hz
      simp only [addToGroup, hd, if_false, List.mem_cons] at hp
      rcases hp with hp | hp
      · subst hp
        exact hgs (d', l) (List.mem_cons_self _ _) z hz
      · exact ih (fun q hq => hgs q (List.mem_cons_of_mem _ hq)) p hp z hz

theorem foldl_addToGroup_dates (xs : Store) (gs : List (String × Store))
    (hgs : ∀ p ∈ gs, ∀ z ∈ p.2, depDateKey z.2 = p.1) :
    ∀ p ∈ xs.foldl (fun gs x => addToGroup gs (depDateKey x.2) x) gs,
      ∀ z ∈ p.2, depDateKey z.2 = p.1 := by
  induction xs generalizing gs with
  | nil => exact hgs
  | cons x rest ih =>
    simp only [List.foldl_cons]
    exact ih _ (addToGroup_dates gs _ x hgs rfl)

theorem foldl_addToGroup_keys_nodup (xs : Store) (gs : List (String × Store))
    (h : (gs.map Prod.fst).Nodup) :
    ((xs.foldl (fun gs x => addToGroup gs (depDateKey x.2) x) gs).map
      Prod.fst).Nodup := by
  induction xs generalizing gs with
  | nil => exact h
  | cons x rest ih =>
    simp only [List.foldl_cons]
    exact ih _ (addToGroup_keys_nodup gs _ x h)

/-- Every record of a day group carries exactly that group's date key. -/
theorem group_flights_dates (flights : Store) :
    ∀ p ∈ group_flights_by_date flights, ∀ z ∈ p.2, depDateKey z.2 = p.1 := by
  intro p hp z hz
  unfold group_flights_by_date at hp
  simp only [List.mem_map] at hp
  obtain ⟨q, hq, hpq⟩ := hp
  subst hpq
  have hz' : z ∈ q.2 := (List.perm_insertionSort timeRel q.2).mem_iff.mp hz
  exact foldl_addToGroup_dates flights [] (by simp) q hq z hz'

/-- Each day group's list is sorted ascending by `dep_time`. -/
theorem group_flights_sorted (flights : Store) :
    ∀ p ∈ group_flights_by_date flights, List.Sorted timeRel p.2 := by
  intro p hp
  unfold group_flights_by_date at hp
  simp only [List.mem_map] at hp
  obtain ⟨q, -, hpq⟩ := hp
  subst hpq
  exact List.sorted_insertionSort timeRel q.2

/-- The day keys of the grouping are pairwise distinct. -/
theorem group_flights_keys_nodup (flights : Store) :
    ((group_flights_by_date flights).map Prod.fst).Nodup := by
  unfold group_flights_by_date
  rw [List.map_map]
  have : (Prod.fst ∘ fun g : String × Store => (g.1, g.2.insertionSort timeRel)) =
      Prod.fst := rfl
  rw [this]
  exact foldl_addToGroup_keys_nodup flights [] (by simp)

-- ---------------------------------------------------------------------------
-- `format_date_ordinal`
-- ---------------------------------------------------------------------------

/-- `dt.strftime("%B")`: the English month name. -/
def monthName : Nat → String
  | 1 => "January" | 2 => "February" | 3 => "March" | 4 => "April"
  | 5 => "May" | 6 => "June" | 7 => "July" | 8 => "August"
  | 9 => "September" | 10 => "October" | 11 => "November" | _ => "December"

/-- The ordinal suffix chosen by `format_date_ordinal` (source line 247). -/
def ordinalSuffix (day : Nat) : String :=
  if 11 ≤ day ∧ day ≤ 13 then "th"
  else if day % 10 = 1 then "st"
  else if day % 10 = 2 then "nd"
  else if day % 10 = 3 then "rd"
  else "th"

/-- `format_date_ordinal(date_raw)`: ordinal day + month name, or the
input unchanged when `strptime` fails. -/
def format_date_ordinal (date_raw : String) : String :=
  match parseDMY date_raw with
  | some (d, m, _) => toString d ++ ordinalSuffix d ++ " " ++ monthName m
  | none => date_raw

-- ---------------------------------------------------------------------------
-- Request bodies and `serialize_entry`
-- ---------------------------------------------------------------------------

/-- A JSON request body: field name to string value (the value shapes the
dashboard sends).  `bget` is Python `body.get(f)`. -/
abbrev Body := List (String × String)

def bget : Body → String → Option String
  | [], _ => none
  | (k, v) :: rest, key => if k = key then some v else bget rest key

/-- The dict returned by `serialize_entry` (all values strings after the
`.get(..., default)` reads of the source). -/
structure Serialized where
  code : String
  flight_number : String
  dep_city : String
  arr_city : String
  dep_code : String
  arr_code : String
  dep_airport : String
  arr_airport : String
  dep_time : String
  arr_time : String
  dep_date : String
  dep_date_raw : String
  duration : String
  terminal : String
  aircraft : String
  meal_service : String
  status : String
  gate_dep : String
  gate_arr : String
  alerts : String
  server_link : String
  event_link : String
  host_user_id : String
  created_at : String
deriving DecidableEq, Repr

/-- `serialize_entry(code, entry)` (source lines 492-526): the `dep_date`
field is re-displayed as `YYYY-MM-DD` when the stored `DDMMYYYY` form
parses, else passed through raw. -/
def serialize_entry (code : String) (e : Entry) : Serialized :=
  { code := code
    flight_number := e.flight_number.getD ""
    dep_city := e.dep_city.getD ""
    arr_city := e.arr_city.getD ""
    dep_code := e.dep_code.getD ""
    arr_code := e.arr_code.getD ""
    dep_airport := e.dep_airport.getD ""
    arr_airport := e.arr_airport.getD ""
    dep_time := e.dep_time.getD ""
    arr_time := e.arr_time.getD ""
    dep_date :=
      match parseDMY (e.dep_date.getD "") with
      | some (d, m, y) => fmtYMD y m d
      | none => e.dep_date.getD ""
    dep_date_raw := e.dep_date.getD ""
    duration := e.duration.getD ""
    terminal := e.terminal.getD ""
    aircraft := e.aircraft.getD ""
    meal_service := e.meal_service.getD "N/A"
    status := e.status.getD "N/A"
    gate_dep := ((e.gate.getD {}).dep).getD "N/A"
    gate_arr := ((e.gate.getD {}).arr).getD "N/A"
    alerts := e.alerts.getD "N/A"
    server_link := ((e.server.getD {}).link).getD "N/A"
    event_link := ((e.event.getD {}).link).getD "N/A"
    host_user_id := e.host_user_id.getD ""
    created_at := e.created_at.getD "" }

/-- Result of an API handler: `ok` payload or an `HTTPException`
(status code, detail). -/
abbrev ApiResult (α : Type) := Except (Nat × String) α

-- ---------------------------------------------------------------------------
-- `GET /api/flights/{code}` (`get_flight`)
-- ---------------------------------------------------------------------------

/-- `get_flight` (source lines 560-566): 404 iff the uppercased code is
absent or the entry has no `flight_number`; otherwise the serialized
entry.  (Discord/auth side effects are outside the model.) -/
def get_flight (store : Store) (code : String) : ApiResult Serialized :=
  match dget store (pyUpper code) with
  | none => Except.error (404, "Flight not found")
  | some e =>
    if e.flight_number.isNone then Except.error (404, "Flight not found")
    else Except.ok (serialize_entry (pyUpper code) e)

-- ---------------------------------------------------------------------------
-- `PATCH /api/flights/{code}` (`update_flight`)
-- ---------------------------------------------------------------------------

/-- `VALID_STATUSES` (source line 590). -/
def VALID_STATUSES : List String :=
  ["On–Time", "Delayed", "Cancelled", "Rescheduled", "N/A", "Ended"]

/-- `field_map` (source lines 579-587), in source insertion order. -/
def fieldMap : List (String × (Entry → String → Entry)) :=
  [("status", fun e v => { e with status := some v }),
   ("alerts", fun e v => { e with alerts := some v }),
   ("meal_service", fun e v => { e with meal_service := some v }),
   ("gate_dep", fun e v => { e with gate := some { e.gate.getD {} with dep := some v } }),
   ("gate_arr", fun e v => { e with gate := some { e.gate.getD {} with arr := some v } }),
   ("server_link", fun e v => { e with server := some { link := some v } }),
   ("event_link", fun e v => { e with event := some { link := some v } })]

/-- One iteration of the update loop (source lines 595-598): apply the
updater when the field is in the body, and record its name. -/
def patchStep (body : Body) (acc : Entry × List String)
    (f : String × (Entry → String → Entry)) : Entry × List String :=
  match bget body f.1 with
  | some v => (f.2 acc.1 v, acc.2 ++ [f.1])
  | none => acc

/-- The update loop (source lines 594-598): apply each allow-listed field
present in the body, collecting the names applied. -/
def applyPatch (e : Entry) (body : Body) : Entry × List String :=
  fieldMap.foldl (patchStep body) (e, [])

/-- `update_flight` (source lines 568-616): 404 when absent / not a
flight; 422 when a `status` value outside `VALID_STATUSES` is supplied
(checked before any mutation); otherwise apply the allow-listed fields
and store the updated entry. -/
def update_flight (store : Store) (code : String) (body : Body) :
    ApiResult Serialized × Store :=
  match dget store (pyUpper code) with
  | none => (Except.error (404, "Flight not found"), store)
  | some e =>
    if e.flight_number.isNone then (Except.error (404, "Flight not found"), store)
    else
      match bget body "status" with
      | some v =>
        if v ∈ VALID_STATUSES then
          (Except.ok (serialize_entry (pyUpper code) (applyPatch e body).1),
           dset store (pyUpper code) (applyPatch e body).1)
        else (Except.error (422, "Invalid status"), store)
      | none =>
        (Except.ok (serialize_entry (pyUpper code) (applyPatch e body).1),
         dset store (pyUpper code) (applyPatch e body).1)

-- ---------------------------------------------------------------------------
-- `POST /api/flights` (`create_flight`)
-- ---------------------------------------------------------------------------

/-- `required` (source lines 623-625). -/
def requiredFields : List String :=
  ["flight_number", "dep_city", "arr_city", "dep_code", "arr_code",
   "dep_airport", "arr_airport", "dep_time", "arr_time", "dep_date",
   "duration", "terminal", "aircraft"]

/-- `[f for f in required if not body.get(f)]`: absent or empty. -/
def missingFields (body : Body) : List String :=
  requiredFields.filter (fun f => (bget body f).getD "" = "")

/-- Date normalisation of `create_flight` (source lines 635-640): accept
`YYYY-MM-DD`, store as `DDMMYYYY`; unparseable input is stored raw. -/
def storedDepDate (raw : String) : String :=
  match parseYMD raw with
  | some (y, m, d) => fmtDMY d m y
  | none => raw

/-- The entry dict built by `create_flight` (source lines 642-667). -/
def createdEntry (body : Body) (code createdAt : String) : Entry :=
  { code := some code
    flight_number := some (pyStrip ((bget body "flight_number").getD ""))
    dep_city := some (pyStrip ((bget body "dep_city").getD ""))
    arr_city := some (pyStrip ((bget body "arr_city").getD ""))
    dep_code := some (pyUpper (pyStrip ((bget body "dep_code").getD "")))
    arr_code := some (pyUpper (pyStrip ((bget body "arr_code").getD "")))
    dep_airport := some (pyStrip ((bget body "dep_airport").getD ""))
    arr_airport := some (pyStrip ((bget body "arr_airport").getD ""))
    dep_time := some (pyStrip ((bget body "dep_time").getD ""))
    arr_time := some (pyStrip ((bget body "arr_time").getD ""))
    dep_date := some (storedDepDate ((bget body "dep_date").getD ""))
    duration := some (pyStrip ((bget body "duration").getD ""))
    terminal := some (pyStrip ((bget body "terminal").getD ""))
    aircraft := some (pyUpper (pyStrip ((bget body "aircraft").getD "")))
    host_user_id := some (pyStrip ((bget body "host_user_id").getD ""))
    gate := some { dep := some "N/A", arr := some "N/A" }
    meal_service := some ((bget body "meal_service").getD "N/A")
    status := some ((bget body "status").getD "N/A")
    alerts := some "N/A"
    server := some { link := some "N/A" }
    event := some { link := some (
      if (bget body "event_link").getD "N/A" = "" then "N/A"
      else (bget body "event_link").getD "N/A") }
    public_message_id := none
    admin_message_id := none
    created_at := some createdAt }

/-- `create_flight` (source lines 618-692): 422 when a required field is
missing/empty, else store the new entry under the pre-drawn fresh `code`
and answer with its serialization.  (Discord embed side effects are
outside the model.) -/
def create_flight (store : Store) (body : Body) (code createdAt : String) :
    ApiResult Serialized × Store :=
  if missingFields body ≠ [] then
    (Except.error (422, "Missing fields"), store)
  else
    (Except.ok (serialize_entry code (createdEntry body code createdAt)),
     dset store code (createdEntry body code createdAt))

-- ---------------------------------------------------------------------------
-- Wizard finalization (`ConfirmView.yes_button`, `is_last_step` branch)
-- ---------------------------------------------------------------------------

/-- The `flight_entry` dict literal of `ConfirmView.yes_button` (source
lines 1099-1112): `{"code": code, "host_user_id": uid, **entry, ...}` —
the session's own keys override `code`/`host_user_id` (they never carry
them in practice), and the trailing literal keys override the session. -/
def wizardFlightEntry (entry : Entry) (uid code createdAt : String) : Entry :=
  { code := some (entry.code.getD code)
    host_user_id := some (entry.host_user_id.getD uid)
    flight_number := entry.flight_number
    dep_city := entry.dep_city
    arr_city := entry.arr_city
    dep_code := entry.dep_code
    arr_code := entry.arr_code
    dep_airport := entry.dep_airport
    arr_airport := entry.arr_airport
    dep_time := entry.dep_time
    arr_time := entry.arr_time
    dep_date := entry.dep_date
    duration := entry.duration
    terminal := entry.terminal
    aircraft := entry.aircraft
    gate := some { dep := some "N/A", arr := some "N/A" }
    meal_service := some "N/A"
    status := some "N/A"
    alerts := some "N/A"
    server := some { link := some "N/A" }
    event := some { link := some "N/A" }
    public_message_id := none
    admin_message_id := none
    created_at := some createdAt }

/-- Wizard finalization (source lines 1088-1116): look up the session
under the submitter's identity key; if present, store the new flight
entry under the fresh `code` and store the session dict under
`{identity}_pending`.  The bare identity key is never deleted.
(Ticket rendering and Discord messaging are outside the model.) -/
def finalizeWizard (store : Store) (uid code createdAt : String) : Store :=
  match dget store uid with
  | none => store
  | some entry =>
    dset (dset store code (wizardFlightEntry entry uid code createdAt))
      (uid ++ "_pending") entry

-- ---------------------------------------------------------------------------
-- Session tokens (`auth.py`: `_sign` / `_verify`)
-- ---------------------------------------------------------------------------

/-- `token.rsplit(".", 1)` at character-list level: split at the LAST
dot; `none` when no dot occurs (Python then raises `ValueError`, which
`_verify`'s `except` clause turns into `None`). -/
def rsplitDotList : List Char → Option (List Char × List Char)
  | [] => none
  | c :: rest =>
    match rsplitDotList rest with
    | some (a, b) => some (c :: a, b)
    | none => if c = '.' then some ([], rest) else none

def rsplitDot (s : String) : Option (String × String) :=
  match rsplitDotList s.data with
  | some (a, b) => some (String.mk a, String.mk b)
  | none => none

theorem rsplitDotList_no_dot (l : List Char) (h : '.' ∉ l) :
    rsplitDotList l = none := by
  induction l with
  | nil => rfl
  | cons c rest ih =>
    simp only [List.mem_cons, not_or] at h
    unfold rsplitDotList
    rw [ih h.2]
    simp [Ne.symm h.1]

theorem rsplitDotList_append (a b : List Char) (h : '.' ∉ b) :
    rsplitDotList (a ++ '.' :: b) = some (a, b) := by
  induction a with
  | nil =>
    simp only [List.nil_append]
    unfold rsplitDotList
    rw [rsplitDotList_no_dot b h]
    simp
  | cons c rest ih =>
    simp only [List.cons_append]
    unfold rsplitDotList
    rw [ih]

/-- `_sign(payload)` (auth.py lines 42-46).  The composition
`base64.urlsafe_b64encode(json.dumps(payload).encode()).decode()` is the
parameter `enc`, and the keyed `hmac.new(SECRET_KEY, ..., sha256)
.hexdigest()` is the parameter `mac`: both are external library
functions, used by the source only through these compositions. -/
def authSign {P : Type} (enc : P → String) (mac : String → String)
    (payload : P) : String :=
  enc payload ++ "." ++ mac (enc payload)

/-- `_verify(token)` (auth.py lines 48-59).  `dec` is the composed
`json.loads(base64.urlsafe_b64decode(b64))` (`none` = any exception),
`getExp` is `payload.get("exp", 0)`, `now` is `time.time()`.  Every
failure path returns `none`, never raises. -/
def authVerify {P : Type} (dec : String → Option P) (mac : String → String)
    (getExp : P → Int) (now : Int) (token : String) : Option P :=
  match rsplitDot token with
  | none => none
  | some (b64, sig) =>
    if sig = mac b64 then
      match dec b64 with
      | none => none
      | some payload => if getExp payload < now then none else some payload
    else none


-- ---------------------------------------------------------------------------
-- Lemmas about the PATCH update loop
-- ---------------------------------------------------------------------------

/-- The allow-listed field names, in `field_map` order. -/
def recognizedFields : List String :=
  ["status", "alerts", "meal_service", "gate_dep", "gate_arr",
   "server_link", "event_link"]

theorem fieldMap_names : fieldMap.map Prod.fst = recognizedFields := rfl

theorem bget_filter_eq (body : Body) (p : String → Bool) (f : String)
    (hf : p f = true) :
    bget (body.filter fun kv => p kv.1) f = bget body f := by
  induction body with
  | nil => rfl
  | cons kv rest ih =>
    obtain ⟨k, v⟩ := kv
    by_cases h : k = f
    · subst h
      rw [List.filter_cons, if_pos (by exact hf)]
      simp [bget]
    · rw [List.filter_cons]
      by_cases hp : p k = true
      · rw [if_pos hp]
        simp [bget, h, ih]
      · rw [if_neg hp]
        simp [bget, h, ih]

theorem patchStep_congr (b1 b2 : Body) (acc : Entry × List String)
    (f : String × (Entry → String → Entry)) (h : bget b1 f.1 = bget b2 f.1) :
    patchStep b1 acc f = patchStep b2 acc f := by
  unfold patchStep
  rw [h]

theorem foldl_patchStep_congr (fs : List (String × (Entry → String → Entry)))
    (b1 b2 : Body) (acc : Entry × List String)
    (h : ∀ f ∈ fs, bget b1 f.1 = bget b2 f.1) :
    fs.foldl (patchStep b1) acc = fs.foldl (patchStep b2) acc := by
  induction fs generalizing acc with
  | nil => rfl
  | cons f rest ih =>
    simp only [List.foldl_cons]
    rw [patchStep_congr b1 b2 acc f (h f (List.mem_cons_self _ _))]
    exact ih _ (fun g hg => h g (List.mem_cons_of_mem _ hg))

theorem applyPatch_congr (e : Entry) (b1 b2 : Body)
    (h : ∀ f ∈ recognizedFields, bget b1 f = bget b2 f) :
    applyPatch e b1 = applyPatch e b2 := by
  unfold applyPatch
  refine foldl_patchStep_congr fieldMap b1 b2 (e, []) (fun f hf => ?_)
  refine h f.1 ?_
  rw [← fieldMap_names]
  exact List.mem_map_of_mem Prod.fst hf

/-- Unrecognized body fields are invisible to the update loop: filtering
the body down to the allow-listed names changes nothing. -/
theorem applyPatch_filter (e : Entry) (body : Body) :
    applyPatch e body =
      applyPatch e (body.filter fun kv => decide (kv.1 ∈ recognizedFields)) := by
  apply applyPatch_congr
  intro f hf
  exact (bget_filter_eq body (fun g => decide (g ∈ recognizedFields)) f
    (by simp [hf])).symm

theorem patchStep_preserve {α : Type} (proj : Entry → α) (body : Body)
    (acc : Entry × List String) (f : String × (Entry → String → Entry))
    (hf : ∀ e v, proj (f.2 e v) = proj e) :
    proj (patchStep body acc f).1 = proj acc.1 := by
  unfold patchStep
  cases bget body f.1
  · rfl
  · exact hf _ _

theorem patchStep_sets {α : Type} (proj : Entry → α) (body : Body)
    (acc : Entry × List String) (f : String × (Entry → String → Entry))
    (v : String) (r : α) (h : bget body f.1 = some v)
    (hset : ∀ e, proj (f.2 e v) = r) :
    proj (patchStep body acc f).1 = r := by
  unfold patchStep
  rw [h]
  exact hset _

theorem applyPatch_status (e : Entry) (body : Body) (v : String)
    (h : bget body "status" = some v) :
    (applyPatch e body).1.status = some v := by
  show Entry.status (applyPatch e body).1 = some v
  unfold applyPatch fieldMap
  simp only [List.foldl_cons, List.foldl_nil]
  rw [patchStep_preserve Entry.status _ _ _ (fun _ _ => rfl),
      patchStep_preserve Entry.status _ _ _ (fun _ _ => rfl),
      patchStep_preserve Entry.status _ _ _ (fun _ _ => rfl),
      patchStep_preserve Entry.status _ _ _ (fun _ _ => rfl),
      patchStep_preserve Entry.status _ _ _ (fun _ _ => rfl),
      patchStep_preserve Entry.status _ _ _ (fun _ _ => rfl)]
  exact patchStep_sets Entry.status body _ _ v (some v) h (fun _ => rfl)

theorem applyPatch_alerts (e : Entry) (body : Body) (v : String)
    (h : bget body "alerts" = some v) :
    (applyPatch e body).1.alerts = some v := by
  show Entry.alerts (applyPatch e body).1 = some v
  unfold applyPatch fieldMap
  simp only [List.foldl_cons, List.foldl_nil]
  rw [patchStep_preserve Entry.alerts _ _ _ (fun _ _ => rfl),
      patchStep_preserve Entry.alerts _ _ _ (fun _ _ => rfl),
      patchStep_preserve Entry.alerts _ _ _ (fun _ _ => rfl),
      patchStep_preserve Entry.alerts _ _ _ (fun _ _ => rfl),
      patchStep_preserve Entry.alerts _ _ _ (fun _ _ => rfl)]
  exact patchStep_sets Entry.alerts body _ _ v (some v) h (fun _ => rfl)

theorem applyPatch_meal (e : Entry) (body : Body) (v : String)
    (h : bget body "meal_service" = some v) :
    (applyPatch e body).1.meal_service = some v := by
  show Entry.meal_service (applyPatch e body).1 = some v
  unfold applyPatch fieldMap
  simp only [List.foldl_cons, List.foldl_nil]
  rw [patchStep_preserve Entry.meal_service _ _ _ (fun _ _ => rfl),
      patchStep_preserve Entry.meal_service _ _ _ (fun _ _ => rfl),
      patchStep_preserve Entry.meal_service _ _ _ (fun _ _ => rfl),
      patchStep_preserve Entry.meal_service _ _ _ (fun _ _ => rfl)]
  exact patchStep_sets Entry.meal_service body _ _ v (some v) h (fun _ => rfl)

theorem applyPatch_gate_dep (e : Entry) (body : Body) (v : String)
    (h : bget body "gate_dep" = some v) :
    (((applyPatch e body).1.gate).getD {}).dep = some v := by
  show (fun e : Entry => ((e.gate).getD {}).dep) (applyPatch e body).1 = some v
  unfold applyPatch fieldMap
  simp only [List.foldl_cons, List.foldl_nil]
  rw [patchStep_preserve (fun e => ((e.gate).getD {}).dep) _ _ _ (fun _ _ => rfl),
      patchStep_preserve (fun e => ((e.gate).getD {}).dep) _ _ _ (fun _ _ => rfl),
      patchStep_preserve (fun e => ((e.gate).getD {}).dep) _ _ _ (fun _ _ => rfl)]
  exact patchStep_sets (fun e => ((e.gate).getD {}).dep) body _ _ v (some v) h
    (fun _ => rfl)

theorem applyPatch_gate_arr (e : Entry) (body : Body) (v : String)
    (h : bget body "gate_arr" = some v) :
    (((applyPatch e body).1.gate).getD {}).arr = some v := by
  show (fun e : Entry => ((e.gate).getD {}).arr) (applyPatch e body).1 = some v
  unfold applyPatch fieldMap
  simp only [List.foldl_cons, List.foldl_nil]
  rw [patchStep_preserve (fun e => ((e.gate).getD {}).arr) _ _ _ (fun _ _ => rfl),
      patchStep_preserve (fun e => ((e.gate).getD {}).arr) _ _ _ (fun _ _ => rfl)]
  exact patchStep_sets (fun e => ((e.gate).getD {}).arr) body _ _ v (some v) h
    (fun _ => rfl)

theorem applyPatch_server (e : Entry) (body : Body) (v : String)
    (h : bget body "server_link" = some v) :
    (applyPatch e body).1.server = some { link := some v } := by
  show Entry.server (applyPatch e body).1 = some { link := some v }
  unfold applyPatch fieldMap
  simp only [List.foldl_cons, List.foldl_nil]
  rw [patchStep_preserve Entry.server _ _ _ (fun _ _ => rfl)]
  exact patchStep_sets Entry.server body _ _ v (some { link := some v }) h
    (fun _ => rfl)

theorem applyPatch_event (e : Entry) (body : Body) (v : String)
    (h : bget body "event_link" = some v) :
    (applyPatch e body).1.event = some { link := some v } := by
  show Entry.event (applyPatch e body).1 = some { link := some v }
  unfold applyPatch fieldMap
  simp only [List.foldl_cons, List.foldl_nil]
  exact patchStep_sets Entry.event body _ _ v (some { link := some v }) h
    (fun _ => rfl)

-- ---------------------------------------------------------------------------
-- Concrete fixtures used by witnesses and counterexamples
-- ---------------------------------------------------------------------------

/-- A dashboard-created real flight record, keyed by a 6-character code. -/
def exFlightEntry : Entry :=
  { code := some "AB12CD"
    flight_number := some "AC8810"
    dep_city := some "Toronto"
    arr_city := some "Montreal"
    dep_code := some "YYZ"
    arr_code := some "YUL"
    dep_airport := some "Toronto Pearson International Airport"
    arr_airport := some "Montreal-Trudeau International Airport"
    dep_time := some "10:30"
    arr_time := some "11:15"
    dep_date := some "20092025"
    duration := some "1h 10m"
    terminal := some "1"
    aircraft := some "B77W"
    meal_service := some "N/A"
    status := some "N/A"
    gate := some { dep := some "N/A", arr := some "N/A" }
    alerts := some "N/A"
    server := some { link := some "N/A" }
    event := some { link := some "N/A" }
    host_user_id := some "250"
    created_at := some "2025-09-01T00:00:00Z" }

/-- A completed wizard session dict (all three steps accumulated), as
stored under the submitter's identity key. -/
def exSessionEntry : Entry :=
  { flight_number := some "AC8815"
    dep_city := some "Ottawa"
    dep_date := some "21092025"
    terminal := some "2"
    aircraft := some "A321"
    arr_city := some "Toronto"
    dep_airport := some "Ottawa Macdonald-Cartier International Airport"
    duration := some "0h 45m"
    dep_time := some "09:00"
    dep_code := some "YOW"
    arr_code := some "YYZ"
    arr_airport := some "Toronto Pearson International Airport"
    arr_time := some "09:45" }

/-- A store holding one real flight and one wizard session keyed by a
submitter identity (an 18-digit id). -/
def exStore : Store :=
  [("AB12CD", exFlightEntry), ("123456789012345678", exSessionEntry)]

def exBadBody : Body := [("status", "Boarding"), ("alerts", "Storm")]

def exMixedBody : Body :=
  [("status", "Delayed"), ("bogus_field", "zz"), ("gate_dep", "A1")]

-- ---------------------------------------------------------------------------
-- Claim theorems
-- ---------------------------------------------------------------------------

/-- C3: for every store and key/entry pair, the pair is in the real-flight
set iff it is in the store, the entry has a `flight_number` field, the key
does not end in `_pending`, and the key has length 6. -/
theorem claim_C3 (store : Store) (k : String) (e : Entry) :
    (k, e) ∈ get_real_flights store ↔
      (k, e) ∈ store ∧ e.flight_number.isSome = true ∧
        ¬ pyEndsWith k "_pending" ∧ k.length = 6 :=
  mem_get_real_flights store k e

/-- C4: a PATCH whose body carries a `status` outside `VALID_STATUSES`
against an existing flight record answers 422 and leaves the store (and
hence the record, including all other fields) completely unchanged. -/
theorem claim_C4 (store : Store) (code : String) (body : Body) (e : Entry)
    (v : String) (hget : dget store (pyUpper code) = some e)
    (hfn : e.flight_number.isSome = true)
    (hstatus : bget body "status" = some v) (hv : v ∉ VALID_STATUSES) :
    update_flight store code body =
      (Except.error (422, "Invalid status"), store) := by
  obtain ⟨fn, hfe⟩ := Option.isSome_iff_exists.mp hfn
  unfold update_flight
  rw [hget]
  simp only [hfe, Option.isNone_some, Bool.false_eq_true, if_false, hstatus]
  rw [if_neg hv]

theorem claim_C4_witness :
    update_flight exStore "AB12CD" exBadBody =
      (Except.error (422, "Invalid status"), exStore) :=
  claim_C4 exStore "AB12CD" exBadBody exFlightEntry "Boarding" rfl (by decide)
    rfl (by decide)

/-- C5: a PATCH mixing recognized and unrecognized fields (with any
`status` value, if present, inside the enumerated set) succeeds; the
unrecognized fields are invisible to the update (filtering them away
changes nothing), while every recognized field present is applied. -/
theorem claim_C5 (store : Store) (code : String) (body : Body) (e : Entry)
    (hget : dget store (pyUpper code) = some e)
    (hfn : e.flight_number.isSome = true)
    (hstat : ∀ v, bget body "status" = some v → v ∈ VALID_STATUSES) :
    update_flight store code body =
      (Except.ok (serialize_entry (pyUpper code) (applyPatch e body).1),
       dset store (pyUpper code) (applyPatch e body).1) ∧
    applyPatch e body =
      applyPatch e (body.filter fun kv => decide (kv.1 ∈ recognizedFields)) ∧
    (∀ v, bget body "status" = some v →
      (applyPatch e body).1.status = some v) ∧
    (∀ v, bget body "alerts" = some v →
      (applyPatch e body).1.alerts = some v) ∧
    (∀ v, bget body "meal_service" = some v →
      (applyPatch e body).1.meal_service = some v) ∧
    (∀ v, bget body "gate_dep" = some v →
      (((applyPatch e body).1.gate).getD {}).dep = some v) ∧
    (∀ v, bget body "gate_arr" = some v →
      (((applyPatch e body).1.gate).getD {}).arr = some v) ∧
    (∀ v, bget body "server_link" = some v →
      (applyPatch e body).1.server = some { link := some v }) ∧
    (∀ v, bget body "event_link" = some v →
      (applyPatch e body).1.event = some { link := some v }) := by
  obtain ⟨fn, hfe⟩ := Option.isSome_iff_exists.mp hfn
  refine ⟨?_, applyPatch_filter e body,
    fun v hv => applyPatch_status e body v hv,
    fun v hv => applyPatch_alerts e body v hv,
    fun v hv => applyPatch_meal e body v hv,
    fun v hv => applyPatch_gate_dep e body v hv,
    fun v hv => applyPatch_gate_arr e body v hv,
    fun v hv => applyPatch_server e body v hv,
    fun v hv => applyPatch_event e body v hv⟩
  unfold update_flight
  rw [hget]
  simp only [hfe, Option.isNone_some, Bool.false_eq_true, if_false]
  cases hb : bget body "status" with
  | none => rfl
  | some v => simp [hstat v hb]

theorem claim_C5_witness :
    update_flight exStore "AB12CD" exMixedBody =
      (Except.ok (serialize_entry "AB12CD" (applyPatch exFlightEntry exMixedBody).1),
       dset exStore "AB12CD" (applyPatch exFlightEntry exMixedBody).1) :=
  (claim_C5 exStore "AB12CD" exMixedBody exFlightEntry rfl (by decide)
    (fun v hv => by
      rw [show bget exMixedBody "status" = some "Delayed" from rfl] at hv
      cases hv
      decide)).1

/-- C9 (amended): `GET /api/flights/{code}` answers 404 exactly when the
uppercased code is absent or the stored entry lacks `flight_number`; any
entry with a `flight_number` — real or not — is served serialized. -/
theorem claim_C9 (store : Store) (code : String) :
    (get_flight store code = Except.error (404, "Flight not found") ↔
      dget store (pyUpper code) = none ∨
        ∃ e, dget store (pyUpper code) = some e ∧ e.flight_number = none) ∧
    (∀ e, dget store (pyUpper code) = some e → e.flight_number.isSome = true →
      get_flight store code = Except.ok (serialize_entry (pyUpper code) e)) := by
  constructor
  · unfold get_flight
    cases hd : dget store (pyUpper code) with
    | none => simp
    | some e =>
      cases hfe : e.flight_number with
      | none => simp [Option.isNone, hfe]
      | some fn => simp [Option.isNone, hfe]
  · intro e hd hfn
    obtain ⟨fn, hfe⟩ := Option.isSome_iff_exists.mp hfn
    unfold get_flight
    rw [hd]
    simp [hfe, Option.isNone]

theorem claim_C9_witness :
    get_flight exStore "AB12CD" =
      Except.ok (serialize_entry "AB12CD" exFlightEntry) :=
  (claim_C9 exStore "AB12CD").2 exFlightEntry rfl (by decide)

/-- C9 counterexample: the wizard session stored under the submitter's
18-digit identity key has a `flight_number` but is not a real record, yet
`GET /api/flights/{identity}` serves it instead of answering 404. -/
theorem claim_C9_counterexample :
    exSessionEntry.flight_number.isSome = true ∧
    isRealPair "123456789012345678" exSessionEntry = false ∧
    get_flight exStore "123456789012345678" =
      Except.ok (serialize_entry "123456789012345678" exSessionEntry) :=
  ⟨by decide, by decide, by rfl⟩

theorem append_pending_length (uid : String) :
    (uid ++ "_pending").length = uid.length + 8 := by
  show (uid ++ "_pending").data.length = uid.data.length + 8
  rw [String.data_append, List.length_append]
  rfl

/-- C1 (amended): wizard step-3 "Yes" with a session present adds exactly
one new real record under the fresh 6-character code (all other keys
unchanged, the `_pending` key never real), stores the session under
`{identity}_pending`, and leaves the session STILL assigned to the bare
identity key (it is copied, not renamed). -/
theorem claim_C1 (store : Store) (uid code createdAt : String) (entry : Entry)
    (hsession : dget store uid = some entry)
    (hfn : entry.flight_number.isSome = true)
    (hfresh : dget store code = none)
    (hlen : code.length = 6) :
    dget (finalizeWizard store uid code createdAt) code =
      some (wizardFlightEntry entry uid code createdAt) ∧
    isRealPair code (wizardFlightEntry entry uid code createdAt) = true ∧
    dget (finalizeWizard store uid code createdAt) (uid ++ "_pending") =
      some entry ∧
    dget (finalizeWizard store uid code createdAt) uid = some entry ∧
    (∀ e', isRealPair (uid ++ "_pending") e' = false) ∧
    (∀ k, k ≠ code → k ≠ uid ++ "_pending" →
      dget (finalizeWizard store uid code createdAt) k = dget store k) := by
  have hne3 : uid ≠ code := by
    intro h
    rw [h, hfresh] at hsession
    exact Option.noConfusion hsession
  have hpl : (uid ++ "_pending").length = uid.length + 8 := append_pending_length uid
  have hne1 : code ≠ uid ++ "_pending" := by
    intro h
    have hl := congrArg String.length h
    rw [hlen, hpl] at hl
    omega
  have hne2 : uid ≠ uid ++ "_pending" := by
    intro h
    have hl := congrArg String.length h
    rw [hpl] at hl
    omega
  unfold finalizeWizard
  rw [hsession]
  refine ⟨?_, ?_, ?_, ?_, ?_, ?_⟩
  · rw [dget_dset_ne _ _ _ _ (Ne.symm hne1), dget_dset_self]
  · unfold isRealPair
    have h1 : (wizardFlightEntry entry uid code createdAt).flight_number.isSome
        = true := hfn
    have h2 : decide (pyEndsWith code "_pending") = false := by
      rw [decide_eq_false_iff_not]
      apply not_pyEndsWith_of_length_lt
      rw [hlen]
      decide
    rw [h1, h2]
    simp [hlen]
  · rw [dget_dset_self]
  · rw [dget_dset_ne _ _ _ _ (Ne.symm hne2),
        dget_dset_ne _ _ _ _ (Ne.symm hne3), hsession]
  · intro e'
    unfold isRealPair
    have hpend : decide (pyEndsWith (uid ++ "_pending") "_pending") = true :=
      decide_eq_true (pyEndsWith_append uid "_pending")
    rw [hpend]
    simp
  · intro k hk1 hk2
    rw [dget_dset_ne _ _ _ _ (Ne.symm hk2), dget_dset_ne _ _ _ _ (Ne.symm hk1)]

/-- A store holding exactly one completed wizard session. -/
def exWizardStore : Store := [("250", exSessionEntry)]

theorem claim_C1_witness :
    dget (finalizeWizard exWizardStore "250" "ZZ99XX" "2025-09-22T00:00:00Z")
      "ZZ99XX" =
      some (wizardFlightEntry exSessionEntry "250" "ZZ99XX"
        "2025-09-22T00:00:00Z") ∧
    dget (finalizeWizard exWizardStore "250" "ZZ99XX" "2025-09-22T00:00:00Z")
      ("250" ++ "_pending") = some exSessionEntry :=
  ⟨(claim_C1 exWizardStore "250" "ZZ99XX" "2025-09-22T00:00:00Z" exSessionEntry
      rfl (by decide) rfl (by decide)).1,
   (claim_C1 exWizardStore "250" "ZZ99XX" "2025-09-22T00:00:00Z" exSessionEntry
      rfl (by decide) rfl (by decide)).2.2.1⟩

/-- C1 counterexample: after finalization the bare identity key is still
assigned (the source never deletes `user_data[str(uid)]`), contradicting
"the store ... no longer \x7bhas\x7d the bare identity key". -/
theorem claim_C1_counterexample :
    dget (finalizeWizard exWizardStore "250" "ZZ99XX" "2025-09-22T00:00:00Z")
      "250" ≠ none := by
  decide

/-- C2 (amended): generated codes are drawn from `[A-Z0-9]` and flight
codes are resampled until fresh; the length is 6 on BOTH the
API/dashboard path and the wizard (chat-completed) path — both call
`generate_code()` with its default — while error-reference codes use
length 7 (`generate_ref_code` default). -/
theorem claim_C2 :
    (∀ r, (generate_code_default r).length = 6 ∧
      ∀ c ∈ (generate_code_default r).data, c ∈ codeAlphabet) ∧
    (∀ r, (generate_ref_code_default r).length = 7 ∧
      ∀ c ∈ (generate_ref_code_default r).data, c ∈ codeAlphabet) ∧
    (∀ store rs c, wizardDrawCode store rs = some c →
      dget store c = none ∧ c.length = 6) ∧
    (∀ store rs c, dashboardDrawCode store rs = some c →
      dget store c = none ∧ c.length = 6) := by
  refine ⟨fun r => ⟨generate_code_length r 6, generate_code_alphabet r 6⟩,
    fun r => ⟨generate_code_length r 7, generate_code_alphabet r 7⟩, ?_, ?_⟩
  · intro store rs c h
    unfold wizardDrawCode at h
    obtain ⟨h1, h2⟩ := freshFrom_spec store _ c h
    refine ⟨h1, ?_⟩
    simp only [List.mem_map] at h2
    obtain ⟨r, -, hr⟩ := h2
    rw [← hr]
    exact generate_code_length r 6
  · intro store rs c h
    unfold dashboardDrawCode at h
    obtain ⟨h1, h2⟩ := freshFrom_spec store _ c h
    refine ⟨h1, ?_⟩
    simp only [List.mem_map] at h2
    obtain ⟨r, -, hr⟩ := h2
    rw [← hr]
    exact generate_code_length r 6

theorem claim_C2_witness :
    dget exStore "AAAAAA" = none ∧ "AAAAAA".length = 6 :=
  claim_C2.2.2.1 exStore [fun _ => 0] "AAAAAA" (by decide)

/-- C2 counterexample: a wizard-finalized flight code has 6, not 7,
characters — the wizard drawing loop yields a 6-character code. -/
theorem claim_C2_counterexample :
    wizardDrawCode exStore [fun _ => 0] = some "AAAAAA" ∧
    ¬ ("AAAAAA".length = 7) := by
  constructor
  · decide
  · decide

/-- C6: creating a flight with all required fields and a well-formed
`YYYY-MM-DD` `dep_date` stores the date as `DDMMYYYY`, and a subsequent
GET of the new code serializes it back to the original `YYYY-MM-DD`
string — a round trip. -/
theorem claim_C6 (store : Store) (body : Body) (code createdAt s : String)
    (y m d : Nat)
    (hmiss : missingFields body = [])
    (hdd : bget body "dep_date" = some s)
    (hparse : parseYMD s = some (y, m, d))
    (hcode : pyUpper code = code) :
    create_flight store body code createdAt =
      (Except.ok (serialize_entry code (createdEntry body code createdAt)),
       dset store code (createdEntry body code createdAt)) ∧
    (createdEntry body code createdAt).dep_date = some (fmtDMY d m y) ∧
    (serialize_entry code (createdEntry body code createdAt)).dep_date = s ∧
    get_flight (create_flight store body code createdAt).2 code =
      Except.ok (serialize_entry code (createdEntry body code createdAt)) := by
  have hvalid : validYMD y m d = true := validYMD_of_parseYMD s y m d hparse
  have hstored : storedDepDate s = fmtDMY d m y := by
    unfold storedDepDate
    rw [hparse]
  have hdates : (createdEntry body code createdAt).dep_date =
      some (fmtDMY d m y) := by
    show some (storedDepDate ((bget body "dep_date").getD "")) = _
    rw [hdd]
    show some (storedDepDate s) = _
    rw [hstored]
  have hcf : create_flight store body code createdAt =
      (Except.ok (serialize_entry code (createdEntry body code createdAt)),
       dset store code (createdEntry body code createdAt)) := by
    unfold create_flight
    rw [if_neg (by simp [hmiss])]
  refine ⟨hcf, hdates, ?_, ?_⟩
  · show (match parseDMY ((createdEntry body code createdAt).dep_date.getD "")
        with
      | some (d, m, y) => fmtYMD y m d
      | none => (createdEntry body code createdAt).dep_date.getD "") = s
    rw [hdates]
    show (match parseDMY (fmtDMY d m y) with
      | some (d, m, y) => fmtYMD y m d
      | none => fmtDMY d m y) = s
    rw [parseDMY_fmtDMY y m d hvalid]
    exact fmtYMD_of_parseYMD s y m d hparse
  · rw [hcf]
    show get_flight (dset store code (createdEntry body code createdAt)) code =
      Except.ok (serialize_entry code (createdEntry body code createdAt))
    unfold get_flight
    rw [hcode, dget_dset_self]
    rfl

/-- A complete dashboard create-flight request body. -/
def exCreateBody : Body :=
  [("flight_number", "AC8810"), ("dep_city", "Toronto"),
   ("arr_city", "Montreal"), ("dep_code", "yyz"), ("arr_code", "yul"),
   ("dep_airport", "Toronto Pearson International Airport"),
   ("arr_airport", "Montreal-Trudeau International Airport"),
   ("dep_time", "10:30"), ("arr_time", "11:15"), ("dep_date", "2025-09-20"),
   ("duration", "1h 10m"), ("terminal", "1"), ("aircraft", "b77w")]

theorem claim_C6_witness :
    (createdEntry exCreateBody "XY34ZW" "T").dep_date = some "20092025" ∧
    (serialize_entry "XY34ZW"
      (createdEntry exCreateBody "XY34ZW" "T")).dep_date = "2025-09-20" :=
  ⟨(claim_C6 exStore exCreateBody "XY34ZW" "T" "2025-09-20" 2025 9 20
      (by decide) rfl (by decide) rfl).2.1,
   (claim_C6 exStore exCreateBody "XY34ZW" "T" "2025-09-20" 2025 9 20
      (by decide) rfl (by decide) rfl).2.2.1⟩

/-- C7: grouping the records by `dep_date` and flattening the groups
recovers exactly the original record set (a permutation, with pairwise
distinct day keys and each record inside the group of its own
`dep_date`), and each day group is sorted ascending by `dep_time`. -/
theorem claim_C7 (flights : Store) :
    List.Perm (((group_flights_by_date flights).map Prod.snd).flatten)
      flights ∧
    (∀ p ∈ group_flights_by_date flights, ∀ z ∈ p.2, depDateKey z.2 = p.1) ∧
    (∀ p ∈ group_flights_by_date flights, List.Sorted timeRel p.2) ∧
    ((group_flights_by_date flights).map Prod.fst).Nodup :=
  ⟨group_flights_flatten flights, group_flights_dates flights,
   group_flights_sorted flights, group_flights_keys_nodup flights⟩

/-- A second real flight on the same day, departing earlier. -/
def exFlightEntry2 : Entry :=
  { exFlightEntry with
    code := some "EF56GH"
    flight_number := some "AC8815"
    dep_time := some "09:00"
    arr_time := some "09:45" }

def exFlights : Store :=
  [("AB12CD", exFlightEntry), ("EF56GH", exFlightEntry2)]

theorem claim_C7_witness :
    List.Sorted timeRel
      [("EF56GH", exFlightEntry2), ("AB12CD", exFlightEntry)] ∧
    depDateKey exFlightEntry = "20092025" :=
  ⟨(claim_C7 exFlights).2.2.1
      ("20092025", [("EF56GH", exFlightEntry2), ("AB12CD", exFlightEntry)])
      (by decide),
   (claim_C7 exFlights).2.1
      ("20092025", [("EF56GH", exFlightEntry2), ("AB12CD", exFlightEntry)])
      (by decide) ("AB12CD", exFlightEntry) (by decide)⟩

/-- C8: on every date string `strptime("%d%m%Y")` parses (including its
lenient non-padded forms) the formatter produces the day number, then
"th" for days 11-13, else "st"/"nd"/"rd" for day mod 10 in 1/2/3 and
"th" otherwise, then the month name; every unparseable string passes
through unchanged.  The enumerated examples hold, as do two lenient
parses and a first-match-leftover failure. -/
theorem claim_C8 :
    (∀ s d m y, parseDMY s = some (d, m, y) →
      format_date_ordinal s =
        toString d ++
          (if 11 ≤ d ∧ d ≤ 13 then "th"
           else if d % 10 = 1 then "st"
           else if d % 10 = 2 then "nd"
           else if d % 10 = 3 then "rd"
           else "th") ++ " " ++ monthName m) ∧
    (∀ s, parseDMY s = none → format_date_ordinal s = s) ∧
    format_date_ordinal "01012025" = "1st January" ∧
    format_date_ordinal "02012025" = "2nd January" ∧
    format_date_ordinal "03012025" = "3rd January" ∧
    format_date_ordinal "04012025" = "4th January" ∧
    format_date_ordinal "11012025" = "11th January" ∧
    format_date_ordinal "12012025" = "12th January" ∧
    format_date_ordinal "13012025" = "13th January" ∧
    format_date_ordinal "21012025" = "21st January" ∧
    format_date_ordinal "22012025" = "22nd January" ∧
    format_date_ordinal "1012025" = "10th January" ∧
    format_date_ordinal "112025" = "1st January" ∧
    format_date_ordinal "25932025" = "25932025" := by
  refine ⟨?_, ?_, by decide, by decide, by decide, by decide, by decide,
    by decide, by decide, by decide, by decide, by decide, by decide,
    by decide⟩
  · intro s d m y h
    unfold format_date_ordinal
    rw [h]
    rfl
  · intro s h
    unfold format_date_ordinal
    rw [h]

theorem claim_C8_witness :
    format_date_ordinal "20092025" =
      toString 20 ++
        (if 11 ≤ 20 ∧ 20 ≤ 13 then "th"
         else if 20 % 10 = 1 then "st"
         else if 20 % 10 = 2 then "nd"
         else if 20 % 10 = 3 then "rd"
         else "th") ++ " " ++ monthName 9 ∧
    format_date_ordinal "99999999" = "99999999" :=
  ⟨claim_C8.1 "20092025" 20 9 2025 (by decide),
   claim_C8.2.1 "99999999" (by decide)⟩

/-- C10 (amended): for any payload codec with the library contracts
(decode inverts encode; encoded payloads and hex digests contain no dot),
`_verify ∘ _sign` returns the payload whenever `exp` is strictly in the
future; a token whose signature part is not the correct digest of its
payload part yields `none`; and a token whose embedded `exp` is strictly
EARLIER than the current time yields `none` (a token with `exp` equal to
the current instant is accepted — see the counterexample). -/
theorem claim_C10 {P : Type} (enc : P → String) (dec : String → Option P)
    (mac : String → String) (getExp : P → Int) (now : Int)
    (hdec : ∀ p, dec (enc p) = some p)
    (hmacdot : ∀ s, '.' ∉ (mac s).data) :
    (∀ p, now < getExp p →
      authVerify dec mac getExp now (authSign enc mac p) = some p) ∧
    (∀ t b sig, rsplitDot t = some (b, sig) → sig ≠ mac b →
      authVerify dec mac getExp now t = none) ∧
    (∀ t b sig p, rsplitDot t = some (b, sig) → sig = mac b →
      dec b = some p → getExp p < now →
      authVerify dec mac getExp now t = none) := by
  have hsplit : ∀ p, rsplitDot (authSign enc mac p) =
      some (enc p, mac (enc p)) := by
    intro p
    unfold authSign rsplitDot
    have hd : (enc p ++ "." ++ mac (enc p)).data =
        (enc p).data ++ '.' :: (mac (enc p)).data := by
      rw [String.data_append, String.data_append, List.append_assoc]
      rfl
    rw [hd, rsplitDotList_append _ _ (hmacdot (enc p))]
  refine ⟨?_, ?_, ?_⟩
  · intro p hp
    unfold authVerify
    rw [hsplit p]
    show (if mac (enc p) = mac (enc p) then
        match dec (enc p) with
        | none => none
        | some payload => if getExp payload < now then none else some payload
      else none) = some p
    rw [if_pos rfl, hdec p]
    show (if getExp p < now then none else some p) = some p
    rw [if_neg (by omega)]
  · intro t b sig hsp hsig
    unfold authVerify
    rw [hsp]
    show (if sig = mac b then
        match dec b with
        | none => none
        | some payload => if getExp payload < now then none else some payload
      else none) = none
    rw [if_neg hsig]
  · intro t b sig p hsp hsig hdecb hexp
    unfold authVerify
    rw [hsp]
    show (if sig = mac b then
        match dec b with
        | none => none
        | some payload => if getExp payload < now then none else some payload
      else none) = none
    rw [if_pos hsig, hdecb]
    show (if getExp p < now then none else some p) = none
    rw [if_pos hexp]

/-- A concrete payload codec for instantiating the token theorems: the
payload is its `exp` number, encoded in unary over a dot-free alphabet. -/
def encW (n : Nat) : String := String.mk (List.replicate n 'a')

def decW (s : String) : Option Nat :=
  if s.data.all (fun c => c == 'a') then some s.data.length else none

def macW (_ : String) : String := "m"

def getExpW (n : Nat) : Int := n

theorem decW_encW (p : Nat) : decW (encW p) = some p := by
  unfold decW encW
  rw [string_mk_data, if_pos (by simp [List.all_eq_true, List.mem_replicate])]
  simp

theorem macW_no_dot (s : String) : '.' ∉ (macW s).data := by
  intro h
  simp [macW] at h

theorem claim_C10_witness :
    authVerify decW macW getExpW 3 (authSign encW macW 5) = some 5 :=
  (claim_C10 encW decW macW getExpW 3 decW_encW macW_no_dot).1 5 (by decide)

/-- C10 counterexample: `_verify` accepts a correctly signed token whose
embedded `exp` EQUALS the current time (the code rejects only
`exp < now`), refuting the claim's "not later than the current time"
clause. -/
theorem claim_C10_counterexample :
    getExpW 5 ≤ 5 ∧
    authVerify decW macW getExpW 5 (authSign encW macW 5) = some 5 := by
  constructor
  · decide
  · rfl
